import Mathlib

/-!
Shallow embedding of the job entity of the Pulsecron/pulse scheduler
(`src/job/index.ts`), together with models of the job methods whose
implementation files are referenced from `src/job/index.ts` but whose
bodies are not part of the available source (they are modelled from the
specification, as marked on each definition).

Conventions of the embedding:
* JavaScript `Date`/millisecond values are integers (`Int`).
* Nullable fields (`Date | null`, optional attributes) are `Option`s;
  for the constructor inputs, `none` stands for both `null` and
  `undefined`, which the source conflates through the `||` operator.
* The TypeScript type `number | string` of `attrs.priority` is
  `Sum Int String`.
* Fallible operations return `Except PulseError _` or pair their result
  with an `Option PulseError`.
-/

/-- Stand-in for the `Pulse` scheduler handle that every job carries
(a non-owning reference; its content is irrelevant to the job entity). -/
structure Pulse where
  id : Nat
deriving DecidableEq, Repr

/-- Errors of the job entity named by the specification. -/
inductive PulseError where
  | invalidPriority
  | timeParseError
deriving DecidableEq, Repr

/-- Backoff options of a job record (`backoff` attribute):
`btype` is the TypeScript union `'exponential' | 'fixed'`. -/
structure Backoff where
  btype : String
  delay : Int
deriving DecidableEq, Repr

/-- The job record attributes (`JobAttributes` of `src/job/index.ts`).
The `pulse` key is declared on the TypeScript interface but is stripped
from the attributes by the constructor, hence it is an `Option` that the
constructor leaves `none`. Counters default to 0 where the source leaves
them `undefined`. -/
structure JobAttrs where
  pulse : Option Pulse
  type : String
  name : String
  priority : Sum Int String
  nextRunAt : Option Int
  shouldSaveResult : Bool
  disabled : Option Bool
  progress : Option Int
  lockedAt : Option Int
  lastRunAt : Option Int
  lastFinishedAt : Option Int
  runCount : Nat
  finishedCount : Nat
  failCount : Nat
  failReason : Option String
  failedAt : Option Int
  backoff : Option Backoff
  repeatInterval : Option String
  repeatAt : Option String
  repeatTimezone : Option String
  startDate : Option Int
  endDate : Option Int
  skipDays : Option (List Nat)
  result : Option String
  data : Option String
deriving DecidableEq, Repr

/-- A job instance: the scheduler handle lives on the instance itself,
next to the attribute record (`this.pulse` / `this.attrs`). -/
structure Job where
  pulse : Pulse
  attrs : JobAttrs
deriving DecidableEq, Repr

/-- Constructor options (`Modify<JobAttributes, { _id?: ObjectId }>`):
every attribute may be absent. `none` models both `undefined` and
`null` inputs, which the constructor treats alike via `||`. -/
structure JobOptions where
  pulse : Pulse
  type : Option String := none
  name : Option String := none
  priority : Option (Sum Int String) := none
  nextRunAt : Option Int := none
  shouldSaveResult : Option Bool := none
  disabled : Option Bool := none
  progress : Option Int := none
  lockedAt : Option Int := none
  lastRunAt : Option Int := none
  lastFinishedAt : Option Int := none
  runCount : Option Nat := none
  finishedCount : Option Nat := none
  failCount : Option Nat := none
  failReason : Option String := none
  failedAt : Option Int := none
  backoff : Option Backoff := none
  repeatInterval : Option String := none
  repeatAt : Option String := none
  repeatTimezone : Option String := none
  startDate : Option Int := none
  endDate : Option Int := none
  skipDays : Option (List Nat) := none
  result : Option String := none
  data : Option String := none
deriving Repr

/-- Modelled from the spec: the fixed integer of the named priority
level `normal` (the `JobPriority` map of `src/pulse/define` is not part
of the available source; the spec fixes only that named levels map to
fixed integers with `high` above `normal`). -/
def JobPriority.normal : Int := 0

/-- Modelled from the spec: the fixed integer of the named priority
level `high`, strictly above `normal`. -/
def JobPriority.high : Int := 10

/-- Modelled from the spec: the table of recognized named priority
levels of `src/pulse/define` (not part of the available source). -/
def namedPriority : String → Option Int
  | "lowest" => some (-20)
  | "low" => some (-10)
  | "normal" => some JobPriority.normal
  | "high" => some JobPriority.high
  | "highest" => some 20
  | _ => none

/-- Modelled from the spec: `parsePriority` of `src/utils` (not part of
the available source). An integer is accepted as is; a recognized named
level is normalized to its fixed integer; an unrecognized name fails
with `InvalidPriority`. -/
def parsePriority : Sum Int String → Except PulseError Int
  | Sum.inl n => Except.ok n
  | Sum.inr s =>
    match namedPriority s with
    | some n => Except.ok n
    | none => Except.error PulseError.invalidPriority

/-- The priority normalization of the `Job` constructor
(`src/job/index.ts`, line 195): priority defaults to
`JobPriority.normal` when absent and is otherwise normalized by
`parsePriority` (an unrecognized name makes construction fail). -/
def constructorPriority (options : JobOptions) : Except PulseError Int :=
  match options.priority with
  | none => Except.ok JobPriority.normal
  | some p => parsePriority p

/-- The `Job` constructor (`src/job/index.ts`, lines 188-219).
`pulse`, `type` and `nextRunAt` are destructured out of the options;
`shouldSaveResult` defaults through `|| false`; the remaining options
are copied into the attributes; finally `name` defaults through
`|| ''`, `type` through `|| 'once'` and `nextRunAt` through
`|| new Date()` — so a `null` (or absent) `nextRunAt` input is replaced
by the current time `now`. -/
def mkJob (options : JobOptions) (now : Int) : Except PulseError Job :=
  match constructorPriority options with
  | Except.error e => Except.error e
  | Except.ok pr => Except.ok
    { pulse := options.pulse
      attrs :=
        { pulse := none
          name := options.name.getD ""
          priority := Sum.inl pr
          type :=
            match options.type with
            | none => "once"
            | some t => if t = "" then "once" else t
          nextRunAt := some (options.nextRunAt.getD now)
          shouldSaveResult := options.shouldSaveResult.getD false
          disabled := options.disabled
          progress := options.progress
          lockedAt := options.lockedAt
          lastRunAt := options.lastRunAt
          lastFinishedAt := options.lastFinishedAt
          runCount := options.runCount.getD 0
          finishedCount := options.finishedCount.getD 0
          failCount := options.failCount.getD 0
          failReason := options.failReason
          failedAt := options.failedAt
          backoff := options.backoff
          repeatInterval := options.repeatInterval
          repeatAt := options.repeatAt
          repeatTimezone := options.repeatTimezone
          startDate := options.startDate
          endDate := options.endDate
          skipDays := options.skipDays
          result := options.result
          data := options.data } }

/-- Modelled from the spec: `priority(value)` of `src/job/priority`
(not part of the available source). The value is normalized by
`parsePriority` and stored as an integer; an unrecognized name yields
an `InvalidPriority` error and leaves the stored value unchanged. The
result pairs the (possibly updated) job with the error, if any. -/
def priorityMethod (value : Sum Int String) (j : Job) : Job × Option PulseError :=
  match parsePriority value with
  | Except.ok n => ({ j with attrs := { j.attrs with priority := Sum.inl n } }, none)
  | Except.error e => (j, some e)

/-- Modelled from the spec: `isRunning()` of `src/job/is-running` (not
part of the available source): true iff `lockedAt` is non-null and
`lastFinishedAt` is null or strictly earlier than `lastRunAt`. -/
def isRunning (a : JobAttrs) : Bool :=
  a.lockedAt.isSome &&
    match a.lastFinishedAt with
    | none => true
    | some f =>
      match a.lastRunAt with
      | some r => decide (f < r)
      | none => false

/-- Modelled from the spec: `isExpired(lockDeadline)` of
`src/job/is-expired` (not part of the available source): true iff
`lockedAt` is non-null and `now - lockedAt > lockDeadline`. -/
def isExpired (lockDeadline : Int) (now : Int) (a : JobAttrs) : Bool :=
  match a.lockedAt with
  | none => false
  | some l => decide (lockDeadline < now - l)

/-- Milliseconds in a day, used by the skip-day advancement. -/
def msPerDay : Int := 86400000

/-- Weekday index of a timestamp in the embedding (days since the
epoch, modulo 7). -/
def weekdayOf (t : Int) : Int := (t / msPerDay) % 7

/-- Modelled from the spec: skip-day advancement (§4.1 step 4) — while
the candidate's weekday is in the skip set, advance by one day, with at
most 7 advances; `none` means all days are skipped (unschedulable). -/
def advanceSkipDays (skip : List Nat) : Nat → Int → Option Int
  | 0, _ => none
  | fuel + 1, t =>
    if (weekdayOf t).toNat % 7 ∈ skip then advanceSkipDays skip fuel (t + msPerDay)
    else some t

/-- Modelled from the spec: `computeNextRunAt()` of
`src/job/compute-next-run-at` (not part of the available source).
Step 1: when both `repeatInterval` and `repeatAt` are absent, the
attributes are returned unchanged immediately. The evaluation of
steps 2-3 (time-of-day / cron / human-readable interval against the
current time and timezone) is abstracted as the parameter `evalRepeat`,
returning the candidate timestamp or `none` on a parse failure (which
sets `failReason` and keeps the prior `nextRunAt`); steps 4-5 then
apply the skip-day advancement and the `[startDate, endDate]` clamp,
retiring the job (`nextRunAt := none`) on exhaustion. -/
def computeNextRunAt (evalRepeat : JobAttrs → Int → Option Int) (now : Int)
    (a : JobAttrs) : JobAttrs :=
  match a.repeatInterval, a.repeatAt with
  | none, none => a
  | _, _ =>
    match evalRepeat a now with
    | none => { a with failReason := some "failed to calculate nextRunAt" }
    | some cand =>
      match advanceSkipDays (a.skipDays.getD []) 7 cand with
      | none => { a with nextRunAt := none }
      | some cand2 =>
        let cand3 :=
          match a.startDate with
          | some s => if cand2 < s then s else cand2
          | none => cand2
        match a.endDate with
        | some e =>
          if e ≤ cand3 then { a with nextRunAt := none }
          else { a with nextRunAt := some cand3 }
        | none => { a with nextRunAt := some cand3 }

/-- Modelled from the spec: the retry delay of `fail` — the constant
`delay` for a `fixed` backoff, `delay * 2^(failCount-1)` capped at a
configured maximum for an `exponential` one (`failCount` is the count
after the increment of the failing run). -/
def retryDelay (cap : Int) (b : Backoff) (failCount : Nat) : Int :=
  if b.btype = "fixed" then b.delay else min (b.delay * 2 ^ (failCount - 1)) cap

/-- Modelled from the spec: `fail(error)` of `src/job/fail` (not part
of the available source). Sets `failReason` and `failedAt`, increments
`failCount`, clears `lockedAt`; with `backoff` configured sets
`nextRunAt = now + retryDelay`; without it falls through to retirement
for `once` jobs or to the recurrence computation otherwise. -/
def fail (evalRepeat : JobAttrs → Int → Option Int) (cap : Int) (now : Int)
    (err : String) (a : JobAttrs) : JobAttrs :=
  let fc := a.failCount + 1
  let a2 :=
    { a with
      failReason := some err
      failedAt := some now
      failCount := fc
      lockedAt := none }
  match a.backoff with
  | some b => { a2 with nextRunAt := some (now + retryDelay cap b fc) }
  | none =>
    if a2.type = "once" then { a2 with nextRunAt := none }
    else computeNextRunAt evalRepeat now a2

/-- Modelled from the spec: `run()` of `src/job/run` (not part of the
available source), as the state machine of §4.4. The handler outcome is
passed in as `handler` applied to the job's name and data; `now` is the
claim time and `finishTime` the completion time. `Idle → Locked` sets
`lockedAt` and `lastRunAt` and increments `runCount`; on success,
`lastFinishedAt` and `finishedCount` are updated, the result is stored
when `shouldSaveResult`, the lock is cleared and `nextRunAt` is set
null for a `once` job or recomputed otherwise; on error, `fail`
applies. -/
def run (evalRepeat : JobAttrs → Int → Option Int) (cap : Int)
    (handler : String → Option String → Except String String)
    (now finishTime : Int) (j : Job) : Job :=
  let locked :=
    { j.attrs with
      lockedAt := some now
      lastRunAt := some now
      runCount := j.attrs.runCount + 1 }
  match handler j.attrs.name j.attrs.data with
  | Except.ok v =>
    let succ :=
      { locked with
        lastFinishedAt := some finishTime
        finishedCount := locked.finishedCount + 1
        result := if locked.shouldSaveResult then some v else locked.result
        lockedAt := none }
    if succ.type = "once" then { j with attrs := { succ with nextRunAt := none } }
    else { j with attrs := computeNextRunAt evalRepeat finishTime succ }
  | Except.error e => { j with attrs := fail evalRepeat cap finishTime e locked }

/-- The lazy-binding cache of a job instance (`_lazyBindings` of
`src/job/index.ts`). A bound function object is represented by the
numeric tag it received when it was created, so that two accesses
return the identical object exactly when they return the same tag;
`counter` is the tag of the next binding to be created. -/
structure BindState where
  bindings : List (String × Nat)
  counter : Nat
deriving DecidableEq, Repr

/-- Lookup of a cached binding by method name. -/
def lookupBinding (name : String) : List (String × Nat) → Option Nat
  | [] => none
  | (k, v) :: rest => if k = name then some v else lookupBinding name rest

/-- The private `bindMethod` of `src/job/index.ts` (lines 305-310): on
the first access the method is bound to the instance and cached under
its name; every later access returns the cached binding untouched. -/
def bindMethod (s : BindState) (methodName : String) : Nat × BindState :=
  match lookupBinding methodName s.bindings with
  | some f => (f, s)
  | none => (s.counter, ⟨(methodName, s.counter) :: s.bindings, s.counter + 1⟩)

/-- The method names of the public getters of `Job`
(`src/job/index.ts`, lines 227-297), each of which returns
`bindMethod` applied to its own name. -/
def jobMethodNames : List String :=
  ["toJSON", "computeNextRunAt", "repeatEvery", "repeatAt", "disable", "enable",
   "unique", "schedule", "priority", "fail", "run", "isRunning", "isExpired",
   "save", "remove", "touch", "setShouldSaveResult", "fetchStatus"]

/-- A concrete attribute record used to instantiate theorems. -/
def baseAttrs : JobAttrs where
  pulse := none
  type := "normal"
  name := "sample"
  priority := Sum.inl 0
  nextRunAt := none
  shouldSaveResult := false
  disabled := none
  progress := none
  lockedAt := none
  lastRunAt := none
  lastFinishedAt := none
  runCount := 0
  finishedCount := 0
  failCount := 0
  failReason := none
  failedAt := none
  backoff := none
  repeatInterval := none
  repeatAt := none
  repeatTimezone := none
  startDate := none
  endDate := none
  skipDays := none
  result := none
  data := none

/-- C1: the claim says a `Job` hydrated from attributes with a null
`nextRunAt` keeps `nextRunAt` null (a retired record stays retired).
The constructor's `nextRunAt || new Date()` (line 217) instead replaces
the null with the current time, against the inline comment above it
("do not default nextRunAt to now" for a finished job): hydrating a
finished, retired record at time 1000 yields `nextRunAt = some 1000`,
not `none`. -/
theorem constructor_replaces_null_nextRunAt :
    (mkJob
        { pulse := ⟨0⟩, name := some "retired", lastFinishedAt := some 50 }
        1000).map (fun j => j.attrs.nextRunAt) = Except.ok (some 1000) := by
  rfl

/-- C2 counterexample: constructing a job with the `name` option absent
yields `attrs.name = ""`, which is empty — refuting the claim that the
name is non-empty after normalization. -/
theorem constructor_name_empty_when_absent :
    (mkJob { pulse := ⟨0⟩ } 0).map (fun j => j.attrs.name) = Except.ok "" := by
  rfl

/-- C2 (amended): for every constructed Job Record, `attrs.name` is a
defined string after construction-time normalization — the provided
name, with an absent name normalized to the empty string (`name || ''`,
line 212); in particular the name may be empty. -/
theorem constructor_name_normalization (opts : JobOptions) (now : Int) (j : Job)
    (h : mkJob opts now = Except.ok j) :
    j.attrs.name = opts.name.getD "" := by
  unfold mkJob at h
  cases hpr : constructorPriority opts with
  | error e => rw [hpr] at h; exact (Except.noConfusion h)
  | ok n =>
    rw [hpr] at h
    cases h
    rfl

/-- C2 witness: the amended claim at a concrete input — a job
constructed with name "emails" keeps that name. -/
theorem constructor_name_normalization_witness :
    (Job.mk ⟨0⟩
        { baseAttrs with
          name := "emails", type := "once", nextRunAt := some 7
          priority := Sum.inl JobPriority.normal }).attrs.name =
      Option.getD (some "emails") "" :=
  constructor_name_normalization
    { pulse := ⟨0⟩, name := some "emails", nextRunAt := some 7 } 7 _ rfl

/-- C3: `isRunning()` is true iff `lockedAt` is non-null and
`lastFinishedAt` is null or strictly earlier than `lastRunAt`; in
particular it is false whenever `lastFinishedAt ≥ lastRunAt`. -/
theorem isRunning_characterization (a : JobAttrs) :
    (isRunning a = true ↔
      a.lockedAt ≠ none ∧
        (a.lastFinishedAt = none ∨
          ∃ f r, a.lastFinishedAt = some f ∧ a.lastRunAt = some r ∧ f < r)) ∧
    (∀ f r, a.lastFinishedAt = some f → a.lastRunAt = some r → r ≤ f →
      isRunning a = false) := by
  constructor
  · rcases hl : a.lockedAt with _ | l <;> rcases hf : a.lastFinishedAt with _ | f <;>
      rcases hr : a.lastRunAt with _ | r <;> simp [isRunning, hl, hf, hr]
  · intro f r hf hr hle
    rcases hl : a.lockedAt with _ | l <;> simp [isRunning, hl, hf, hr]
    omega

/-- C4: `isExpired(lockDeadline)` is true iff `lockedAt` is non-null
and `now - lockedAt` strictly exceeds `lockDeadline`, and false in
every other case, including a null `lockedAt`. -/
theorem isExpired_characterization (lockDeadline now : Int) (a : JobAttrs) :
    (isExpired lockDeadline now a = true ↔
      ∃ l, a.lockedAt = some l ∧ lockDeadline < now - l) ∧
    (a.lockedAt = none → isExpired lockDeadline now a = false) := by
  constructor
  · rcases hl : a.lockedAt with _ | l <;> simp [isExpired, hl]
  · intro hl
    simp [isExpired, hl]

/-- C5: with `backoff` configured, `fail` increments `failCount` and
sets `nextRunAt = now + retryDelay`, where the retry delay is the
constant `delay` for a `fixed` backoff and
`delay * 2^(failCount - 1)` capped at the configured maximum for an
`exponential` one (`failCount` being the incremented count). -/
theorem fail_backoff_sets_retry_nextRunAt (evalRepeat : JobAttrs → Int → Option Int)
    (cap now : Int) (err : String) (a : JobAttrs) (b : Backoff)
    (hb : a.backoff = some b) :
    (fail evalRepeat cap now err a).failCount = a.failCount + 1 ∧
    (fail evalRepeat cap now err a).nextRunAt =
      some (now +
        (if b.btype = "fixed" then b.delay
         else min (b.delay * 2 ^ (a.failCount + 1 - 1)) cap)) := by
  simp [fail, hb, retryDelay]

/-- C5 witness: with `backoff = {type: "exponential", delay: 1000}` and
a large cap, the first, second and third failures schedule the retry
1000ms, 2000ms and 4000ms after the failure time. -/
theorem fail_backoff_sets_retry_nextRunAt_witness :
    (fail (fun _ _ => none) 100000 0 "e"
        { baseAttrs with backoff := some ⟨"exponential", 1000⟩ }).nextRunAt =
      some 1000 ∧
    (fail (fun _ _ => none) 100000 0 "e"
        { baseAttrs with
          backoff := some ⟨"exponential", 1000⟩
          failCount := 1 }).nextRunAt = some 2000 ∧
    (fail (fun _ _ => none) 100000 0 "e"
        { baseAttrs with
          backoff := some ⟨"exponential", 1000⟩
          failCount := 2 }).nextRunAt = some 4000 := by
  refine ⟨?_, ?_, ?_⟩
  · rw [(fail_backoff_sets_retry_nextRunAt (fun _ _ => none) 100000 0 "e"
      { baseAttrs with backoff := some ⟨"exponential", 1000⟩ }
      ⟨"exponential", 1000⟩ rfl).2]
    decide
  · rw [(fail_backoff_sets_retry_nextRunAt (fun _ _ => none) 100000 0 "e"
      { baseAttrs with
        backoff := some ⟨"exponential", 1000⟩
        failCount := 1 }
      ⟨"exponential", 1000⟩ rfl).2]
    decide
  · rw [(fail_backoff_sets_retry_nextRunAt (fun _ _ => none) 100000 0 "e"
      { baseAttrs with
        backoff := some ⟨"exponential", 1000⟩
        failCount := 2 }
      ⟨"exponential", 1000⟩ rfl).2]
    decide

/-- C6: a `once`-type job whose handler completes successfully has a
null `nextRunAt` after `run()` — the job is retired instead of being
rescheduled by the recurrence computation. -/
theorem run_once_success_retires (evalRepeat : JobAttrs → Int → Option Int)
    (cap : Int) (handler : String → Option String → Except String String)
    (now finishTime : Int) (j : Job) (v : String)
    (hty : j.attrs.type = "once")
    (hok : handler j.attrs.name j.attrs.data = Except.ok v) :
    (run evalRepeat cap handler now finishTime j).attrs.nextRunAt = none := by
  simp [run, hok, hty]

/-- C6 witness: a concrete `once` job whose handler returns a value is
retired by `run`. -/
theorem run_once_success_retires_witness :
    (run (fun _ _ => none) 0 (fun _ _ => Except.ok "done") 5 9
        ⟨⟨0⟩, { baseAttrs with type := "once" }⟩).attrs.nextRunAt = none :=
  run_once_success_retires (fun _ _ => none) 0 (fun _ _ => Except.ok "done") 5 9
    ⟨⟨0⟩, { baseAttrs with type := "once" }⟩ "done" rfl rfl

/-- C7: when both `repeatInterval` and `repeatAt` are absent,
`computeNextRunAt()` returns the attributes entirely unchanged — in
particular `nextRunAt` and every other repeat-derived field stay as
they were. -/
theorem computeNextRunAt_no_repeat_unchanged
    (evalRepeat : JobAttrs → Int → Option Int) (now : Int) (a : JobAttrs)
    (hi : a.repeatInterval = none) (ha : a.repeatAt = none) :
    computeNextRunAt evalRepeat now a = a := by
  unfold computeNextRunAt
  rw [hi, ha]

/-- C7 witness: the no-repeat early return at a concrete record. -/
theorem computeNextRunAt_no_repeat_unchanged_witness :
    computeNextRunAt (fun _ _ => none) 0 baseAttrs = baseAttrs :=
  computeNextRunAt_no_repeat_unchanged (fun _ _ => none) 0 baseAttrs rfl rfl

/-- C8: every priority value accepted by `parsePriority` (an integer or
a recognized name) is stored as an integer, both by `priority(value)`
and by the constructor; the named level `high` is strictly above
`normal`; an unrecognized name makes `priority(value)` fail with
`InvalidPriority` leaving the record unchanged, and makes construction
fail with `InvalidPriority`. -/
theorem priority_normalization (v : Sum Int String) (j : Job)
    (opts : JobOptions) (now : Int) :
    (∀ n, parsePriority v = Except.ok n →
        (priorityMethod v j).1.attrs.priority = Sum.inl n ∧
          (priorityMethod v j).2 = none) ∧
    (∀ s, v = Sum.inr s → namedPriority s = none →
        priorityMethod v j = (j, some PulseError.invalidPriority)) ∧
    (namedPriority "high" = some JobPriority.high ∧
      namedPriority "normal" = some JobPriority.normal ∧
      JobPriority.normal < JobPriority.high) ∧
    (∀ p n, opts.priority = some p → parsePriority p = Except.ok n →
        ∃ j2, mkJob opts now = Except.ok j2 ∧
          j2.attrs.priority = Sum.inl n) ∧
    (∀ p, opts.priority = some p →
        parsePriority p = Except.error PulseError.invalidPriority →
        mkJob opts now = Except.error PulseError.invalidPriority) := by
  refine ⟨?_, ?_, ?_, ?_, ?_⟩
  · intro n h
    simp [priorityMethod, h]
  · intro s hv hs
    subst hv
    simp [priorityMethod, parsePriority, hs]
  · refine ⟨rfl, rfl, ?_⟩
    decide
  · intro p n hp hn
    simp only [mkJob, constructorPriority, hp, hn]
    exact ⟨_, rfl, rfl⟩
  · intro p hp hperr
    simp only [mkJob, constructorPriority, hp, hperr]

/-- C9: repeated access of the same method getter on the same instance
returns the identical bound function object: the first access caches
the binding under the method's name in `_lazyBindings`, and the second
access returns the cached binding with the state untouched. The
statement quantifies over the method name, covering each of the
`jobMethodNames` getters, which call `bindMethod` with their own
name. -/
theorem bindMethod_caches (s : BindState) (name : String) :
    bindMethod (bindMethod s name).2 name = bindMethod s name ∧
    lookupBinding name (bindMethod s name).2.bindings =
      some (bindMethod s name).1 := by
  cases h : lookupBinding name s.bindings with
  | some f => simp [bindMethod, h]
  | none => simp [bindMethod, h, lookupBinding]

/-- C10: a constructor call leaving `type`, `shouldSaveResult`,
`priority` and `nextRunAt` unspecified fills the deterministic
defaults — type "once", shouldSaveResult false, the `normal` priority
integer, and the current time as `nextRunAt` — and stores the pulse
handle on the instance while the attributes carry none. -/
theorem constructor_defaults (opts : JobOptions) (now : Int)
    (ht : opts.type = none) (hs : opts.shouldSaveResult = none)
    (hp : opts.priority = none) (hn : opts.nextRunAt = none) :
    ∃ j, mkJob opts now = Except.ok j ∧
      j.attrs.type = "once" ∧
      j.attrs.shouldSaveResult = false ∧
      j.attrs.priority = Sum.inl JobPriority.normal ∧
      j.attrs.nextRunAt = some now ∧
      j.pulse = opts.pulse ∧
      j.attrs.pulse = none := by
  unfold mkJob constructorPriority
  rw [hp]
  exact ⟨_, rfl, by simp [ht], by simp [hs], rfl, by simp [hn], rfl, rfl⟩

/-- C10 witness: the defaults at a concrete constructor call that only
supplies the pulse handle and a name. -/
theorem constructor_defaults_witness :
    ∃ j, mkJob { pulse := ⟨3⟩, name := some "n" } 42 = Except.ok j ∧
      j.attrs.type = "once" ∧
      j.attrs.shouldSaveResult = false ∧
      j.attrs.priority = Sum.inl JobPriority.normal ∧
      j.attrs.nextRunAt = some 42 ∧
      j.pulse = JobOptions.pulse { pulse := ⟨3⟩, name := some "n" } ∧
      j.attrs.pulse = none :=
  constructor_defaults { pulse := ⟨3⟩, name := some "n" } 42 rfl rfl rfl rfl
